import Mathlib

/-! Verification development for the puzzle scanner.

Shallow embedding of `src/c_scanner.c` and `src/sha256_rmd160_fast.h`.
C `uint64_t` / `uint32_t` arithmetic is modelled on `Nat` with explicit
reduction modulo `2 ^ 64` / `2 ^ 32` at every place the C code wraps.
Byte strings are `List Nat` whose elements are byte values. -/

set_option maxRecDepth 8000

/-- The modulus of C `uint64_t` arithmetic, `2 ^ 64`. -/
def M64 : Nat := 18446744073709551616

/-- Truncation to 32 bits, the wrap-around of C `uint32_t` arithmetic. -/
def w32 (x : Nat) : Nat := x % 4294967296

/-- One step of the worker PRNG (`xorshift64_next`, c_scanner.c lines 124-131).
Returns the new stored state (`rng->s = x`) paired with the value the C
function returns (`x * 0x2545F4914F6CDD1D`, a wrapping `uint64_t` product).
The two shifts right cannot overflow; the shift left and the product wrap. -/
def xorshift64_next (s : Nat) : Nat × Nat :=
  let x1 := s ^^^ (s >>> 12)
  let x2 := x1 ^^^ ((x1 <<< 25) % M64)
  let x3 := x2 ^^^ (x2 >>> 27)
  (x3, (x3 * 0x2545F4914F6CDD1D) % M64)

/-- Worker PRNG seeding (c_scanner.c lines 214-216): the OS entropy word `u`
XORed with a worker-distinguishing constant, with the zero seed replaced
by 1. -/
def seedState (u tid : Nat) : Nat :=
  let s := u ^^^ (((tid + 1) * 6364136223846793005) % M64)
  if s = 0 then 1 else s

/-- The PRNG state after `n` further `xorshift64_next` steps. -/
def rngIter (s : Nat) : Nat → Nat
  | 0 => s
  | n + 1 => (xorshift64_next (rngIter s n)).1

/-- The keyspace sampler (`random_start`, c_scanner.c lines 133-137).
Returns `(new prng state, hi, lo)` where `hi = 4 + (r & 3)` for the first
drawn value `r` and `lo` is the second drawn value. -/
def random_start (s : Nat) : Nat × Nat × Nat :=
  let p1 := xorshift64_next s
  let hi := 4 + (p1.2 &&& 3)
  let p2 := xorshift64_next p1.1
  (p2.1, hi, p2.2)

/-- Lower end of the range the program announces (c_scanner.c header comment
and the banner printed by `main`, line 356): `0x400000000000000000 = 2 ^ 70`. -/
def RANGE_MIN : Nat := 0x400000000000000000

/-- Upper end of the announced range: `0x7FFFFFFFFFFFFFFFFF = 2 ^ 71 - 1`. -/
def RANGE_MAX : Nat := 0x7FFFFFFFFFFFFFFFFF

/-- The 256-bit integer a `(hi, lo)` private-key pair denotes,
`hi * 2 ^ 64 + lo`; this is the value `make_scalar` encodes when `hi < 256`. -/
def startScalar (hi lo : Nat) : Nat := hi * M64 + lo

/-- The 32-byte big-endian buffer `make_scalar` fills (c_scanner.c lines
145-158): bytes 0-22 zero, byte 23 the low eight bits of `hi`, bytes 24-31
the big-endian bytes of `lo`. -/
def make_scalar_b32 (hi lo : Nat) : List Nat :=
  List.replicate 23 0 ++
  [hi &&& 0xFF,
   (lo >>> 56) &&& 0xFF, (lo >>> 48) &&& 0xFF, (lo >>> 40) &&& 0xFF,
   (lo >>> 32) &&& 0xFF, (lo >>> 24) &&& 0xFF, (lo >>> 16) &&& 0xFF,
   (lo >>> 8) &&& 0xFF, lo &&& 0xFF]

/-- The integer a big-endian byte string denotes. -/
def beBytesToNat (l : List Nat) : Nat := l.foldl (fun acc b => acc * 256 + b) 0

/-- The absolute key reported on a full match (c_scanner.c lines 255-258):
`found_lo = lo + offset` and `found_hi = hi + (found_lo < lo ? 1 : 0)`,
both in wrapping `uint64_t` arithmetic. -/
def foundKey (hi lo offset : Nat) : Nat × Nat :=
  let found_lo := (lo + offset) % M64
  let found_hi := (hi + if found_lo < lo then 1 else 0) % M64
  (found_hi, found_lo)

/-- The target hash constant `TARGET_H160` (c_scanner.c lines 71-75). -/
def TARGET_H160 : List Nat :=
  [0xf6, 0xf5, 0x43, 0x1d, 0x25, 0xbb, 0xf7, 0xb1, 0x2e, 0x8a,
   0xdd, 0x9a, 0xf5, 0xe3, 0x47, 0x5c, 0x44, 0xa0, 0xa5, 0xb8]

/-- Little-endian packing of four bytes into a 32-bit word. -/
def le32 (b0 b1 b2 b3 : Nat) : Nat := b0 ||| (b1 <<< 8) ||| (b2 <<< 16) ||| (b3 <<< 24)

/-- The `*(uint32_t *)buf` load of a buffer's first four bytes on the
little-endian host the program targets. -/
def load32 (l : List Nat) : Nat := le32 (l.getD 0 0) (l.getD 1 0) (l.getD 2 0) (l.getD 3 0)

/-- The cached four-byte target, the source's TARGET_PREFIX
(`memcpy(&TARGET_PREFIX, TARGET_H160, 4)`, c_scanner.c line 350). -/
def targetPre32 : Nat := load32 TARGET_H160

/-- The filtered candidate test of the scanner loop (c_scanner.c lines
253-254): compare the first four bytes as a `uint32_t` against the cached
target word and only on equality run the full 20-byte `memcmp`. -/
def filteredMatch (h : List Nat) : Bool :=
  if load32 h = targetPre32 then decide (h = TARGET_H160) else false

/-- The unfiltered test: a direct full 20-byte comparison with the target. -/
def directMatch (h : List Nat) : Bool := decide (h = TARGET_H160)

/-- Points per batch (`BATCH_SIZE`, c_scanner.c line 80). -/
def BATCH_SIZE : Nat := 2048

/-- Batches per random start (`NUM_BATCHES`, c_scanner.c line 83). -/
def NUM_BATCHES : Nat := 2048

/-- Local-tally flush threshold (c_scanner.c line 269). -/
def FLUSH_THRESHOLD : Nat := 500000

/-- The batch of points built at c_scanner.c lines 236-239:
`jac_batch[0] = current_jac` and `jac_batch[i] = jac_batch[i-1] + G`.
The external curve group is modelled as an arbitrary additive monoid, its
operations assumed correct; batch normalization does not change the point. -/
def jacBatch {G : Type} [AddMonoid G] (P g : G) : Nat → G
  | 0 => P
  | i + 1 => jacBatch P g i + g

/-- Advancing `current_jac` past a batch (c_scanner.c line 265):
`current_jac = jac_batch[BATCH_SIZE-1] + G`. -/
def advanceCurrent {G : Type} [AddMonoid G] (P g : G) : G :=
  jacBatch P g (BATCH_SIZE - 1) + g

/-- `current_jac` at the start of batch `b`, counting from the start point. -/
def currentJac {G : Type} [AddMonoid G] (P g : G) : Nat → G
  | 0 => P
  | b + 1 => advanceCurrent (currentJac P g b) g

/-- The affine point the worker tests at batch `b`, index `i` (`aff_batch[i]`
after the batch normalization, which is the identity on the abstract point). -/
def batchPoint {G : Type} [AddMonoid G] (P g : G) (b i : Nat) : G :=
  jacBatch (currentJac P g b) g i

/-- A worker's key-counting state: the local tally (`local_count`) and the
total this worker has flushed into the shared `g_total_keys` counter. -/
structure CounterState where
  localCount : Nat
  flushed : Nat
  deriving DecidableEq

/-- End-of-batch accounting (c_scanner.c lines 267-272): the local tally
grows by `BATCH_SIZE` and is flushed once it reaches the threshold. -/
def afterBatch (s : CounterState) : CounterState :=
  let l := s.localCount + BATCH_SIZE
  if FLUSH_THRESHOLD ≤ l then ⟨0, s.flushed + l⟩ else ⟨l, s.flushed⟩

/-- Flush of a positive local tally (c_scanner.c lines 275-278 at the end of
an outer iteration, lines 282-283 on the `done` exit). -/
def flushLocal (s : CounterState) : CounterState :=
  if 0 < s.localCount then ⟨0, s.flushed + s.localCount⟩ else s

/-- One outer-loop iteration in which the worker completes `n` batches
(`n < NUM_BATCHES` when the found flag was observed mid-chunk) and then
flushes any remaining local tally. -/
def runChunk (s : CounterState) (n : Nat) : CounterState :=
  flushLocal (afterBatch^[n] s)

/-- How a worker's loop ends: `stopped` when the found flag is observed at a
loop condition, or `matched b i` when, after completing `b` further batches
of a final chunk, the worker's own candidate at index `i` of the next batch
matches and control jumps to `done` before `local_count += BATCH_SIZE`. -/
inductive LoopExit where
  | stopped : LoopExit
  | matched : Nat → Nat → LoopExit
  deriving DecidableEq

/-- A worker's complete counting run (c_scanner.c lines 218-283): the
finished outer iterations `ns`, then the final exit `t` (on a match the
`done` path still flushes the local tally, lines 282-283). -/
def workerRun (ns : List Nat) (t : LoopExit) : CounterState :=
  let s := ns.foldl runChunk ⟨0, 0⟩
  match t with
  | .stopped => s
  | .matched b _ => flushLocal (afterBatch^[b] s)

/-- The number of candidate keys the worker actually serialized, hashed and
compared during that run: every key of every completed batch, plus, when the
run ends in a match at index `i`, the `i + 1` keys of the partial batch. -/
def keysEvaluated (ns : List Nat) (t : LoopExit) : Nat :=
  BATCH_SIZE * ns.sum +
    match t with
    | .stopped => 0
    | .matched b i => BATCH_SIZE * b + (i + 1)

/-- The process-global search state the threads share: the keys-checked
counter `g_total_keys`, the `g_found` flag, the number of completed writes of
the result file, and the key recorded in it. -/
structure GlobalState where
  totalKeys : Nat
  found : Bool
  fileWrites : Nat
  foundKeyRec : Option (Nat × Nat)
  deriving DecidableEq

/-- The global state at process start. -/
def initGlobal : GlobalState := ⟨0, false, 0, none⟩

/-- `report_found` (c_scanner.c lines 166-191): print, write the result file
(one completed write, recording the key), then `atomic_store(&g_found, 1)`.
It neither reads nor test-and-sets the flag anywhere along the way. -/
def report_found (hi lo : Nat) (g : GlobalState) : GlobalState :=
  { totalKeys := g.totalKeys
    found := true
    fileWrites := g.fileWrites + 1
    foundKeyRec := some (hi, lo) }

/-- The operations through which any thread writes the global state:
a worker's `atomic_fetch_add(&g_total_keys, n)` (lines 270, 276, 283), a
worker's `report_found(hi, lo)` (line 258), and the signal handler's
`atomic_store(&g_found, 1)` (line 323). -/
inductive GlobalOp where
  | flush : Nat → GlobalOp
  | report : Nat → Nat → GlobalOp
  | signalStop : GlobalOp
  deriving DecidableEq

/-- Effect of one global-state write. -/
def applyOp (g : GlobalState) : GlobalOp → GlobalState
  | .flush n => { g with totalKeys := g.totalKeys + n }
  | .report hi lo => report_found hi lo g
  | .signalStop => { g with found := true }

/-- Effect of a sequence of global-state writes (one interleaving). -/
def applyOps : GlobalState → List GlobalOp → GlobalState
  | g, [] => g
  | g, op :: ops => applyOps (applyOp g op) ops

/-- The effect of one `scanner_thread` call on the global state (c_scanner.c
lines 199-288): when either scratch-buffer allocation fails the worker prints
and returns before its first access to any shared state (lines 204-209);
otherwise the rest of the thread body runs, abstracted as `rest`. -/
def scanner_thread_effect (allocJac allocAff : Bool)
    (rest : GlobalState → GlobalState) (g : GlobalState) : GlobalState :=
  if !allocJac || !allocAff then g else rest g

/-- Bitwise complement on a 32-bit word (C `~x` on `uint32_t`). -/
def not32 (x : Nat) : Nat := x ^^^ 4294967295

/-- Rotate a 32-bit word right (`ROR32`, sha256_rmd160_fast.h line 47). -/
def ror32 (x n : Nat) : Nat := (x >>> n) ||| w32 (x <<< (32 - n))

/-- Rotate a 32-bit word left (`ROL32`, sha256_rmd160_fast.h line 128). -/
def rol32 (x n : Nat) : Nat := w32 (x <<< n) ||| (x >>> (32 - n))

/-- Big-endian packing of four bytes (`be32`, lines 55-58). -/
def be32 (b0 b1 b2 b3 : Nat) : Nat := (b0 <<< 24) ||| (b1 <<< 16) ||| (b2 <<< 8) ||| b3

/-- Big-endian bytes of a 32-bit word (`put_be32`, lines 60-65). -/
def be32bytes (v : Nat) : List Nat :=
  [(v >>> 24) &&& 0xFF, (v >>> 16) &&& 0xFF, (v >>> 8) &&& 0xFF, v &&& 0xFF]

/-- Little-endian bytes of a 32-bit word (the RIPEMD output layout,
sha256_rmd160_fast.h lines 356-360). -/
def le32bytes (v : Nat) : List Nat :=
  [v &&& 0xFF, (v >>> 8) &&& 0xFF, (v >>> 16) &&& 0xFF, (v >>> 24) &&& 0xFF]

/-- Parse a byte string into big-endian 32-bit words. -/
def be32words : List Nat → List Nat
  | b0 :: b1 :: b2 :: b3 :: rest => be32 b0 b1 b2 b3 :: be32words rest
  | _ => []

/-- Parse a byte string into little-endian 32-bit words (lines 146-149). -/
def le32words : List Nat → List Nat
  | b0 :: b1 :: b2 :: b3 :: rest => le32 b0 b1 b2 b3 :: le32words rest
  | _ => []

/-- Big-endian 8-byte encoding of a 64-bit value. -/
def be64bytes (v : Nat) : List Nat :=
  [(v >>> 56) &&& 0xFF, (v >>> 48) &&& 0xFF, (v >>> 40) &&& 0xFF, (v >>> 32) &&& 0xFF,
   (v >>> 24) &&& 0xFF, (v >>> 16) &&& 0xFF, (v >>> 8) &&& 0xFF, v &&& 0xFF]

/-- Little-endian 8-byte encoding of a 64-bit value. -/
def le64bytes (v : Nat) : List Nat :=
  [v &&& 0xFF, (v >>> 8) &&& 0xFF, (v >>> 16) &&& 0xFF, (v >>> 24) &&& 0xFF,
   (v >>> 32) &&& 0xFF, (v >>> 40) &&& 0xFF, (v >>> 48) &&& 0xFF, (v >>> 56) &&& 0xFF]

/-- Split a byte string into 64-byte blocks, with a structural fuel
parameter so that the definition evaluates; the fuel is the list length, an
upper bound on the number of blocks. -/
def chunksAux : Nat → List Nat → List (List Nat)
  | 0, _ => []
  | _, [] => []
  | fuel + 1, b :: rest => ((b :: rest).take 64) :: chunksAux fuel ((b :: rest).drop 64)

/-- Split a byte string into 64-byte blocks. -/
def chunks64 (l : List Nat) : List (List Nat) := chunksAux l.length l

/-- The SHA-256 logical functions `CH`, `MAJ`, `EP0`, `EP1`, `SIG0`, `SIG1`
(macros, sha256_rmd160_fast.h lines 48-53); these are the standard
FIPS 180-4 functions, shared by the source embedding and by the standard
reference definition. -/
def shaCh (x y z : Nat) : Nat := (x &&& y) ^^^ (not32 x &&& z)

/-- SHA-256 majority function. -/
def shaMaj (x y z : Nat) : Nat := (x &&& y) ^^^ (x &&& z) ^^^ (y &&& z)

/-- SHA-256 big sigma 0. -/
def shaEp0 (x : Nat) : Nat := ror32 x 2 ^^^ ror32 x 13 ^^^ ror32 x 22

/-- SHA-256 big sigma 1. -/
def shaEp1 (x : Nat) : Nat := ror32 x 6 ^^^ ror32 x 11 ^^^ ror32 x 25

/-- SHA-256 small sigma 0. -/
def shaSig0 (x : Nat) : Nat := ror32 x 7 ^^^ ror32 x 18 ^^^ (x >>> 3)

/-- SHA-256 small sigma 1. -/
def shaSig1 (x : Nat) : Nat := ror32 x 17 ^^^ ror32 x 19 ^^^ (x >>> 10)

/-- SHA-256 initial state as transcribed in the source (lines 22-25). -/
def sha256_H0_src : List Nat :=
  [0x6A09E667, 0xBB67AE85, 0x3C6EF372, 0xA54FF53A,
   0x510E527F, 0x9B05688C, 0x1F83D9AB, 0x5BE0CD19]

/-- SHA-256 initial state of FIPS 180-4 (fractional parts of the square
roots of the first eight primes). -/
def sha256_H0_std : List Nat :=
  [0x6A09E667, 0xBB67AE85, 0x3C6EF372, 0xA54FF53A,
   0x510E527F, 0x9B05688C, 0x1F83D9AB, 0x5BE0CD19]

/-- SHA-256 round constants as transcribed in the source (lines 28-45). -/
def sha256_K_src : List Nat :=
  [0x428A2F98, 0x71374491, 0xB5C0FBCF, 0xE9B5DBA5,
   0x3956C25B, 0x59F111F1, 0x923F82A4, 0xAB1C5ED5,
   0xD807AA98, 0x12835B01, 0x243185BE, 0x550C7DC3,
   0x72BE5D74, 0x80DEB1FE, 0x9BDC06A7, 0xC19BF174,
   0xE49B69C1, 0xEFBE4786, 0x0FC19DC6, 0x240CA1CC,
   0x2DE92C6F, 0x4A7484AA, 0x5CB0A9DC, 0x76F988DA,
   0x983E5152, 0xA831C66D, 0xB00327C8, 0xBF597FC7,
   0xC6E00BF3, 0xD5A79147, 0x06CA6351, 0x14292967,
   0x27B70A85, 0x2E1B2138, 0x4D2C6DFC, 0x53380D13,
   0x650A7354, 0x766A0ABB, 0x81C2C92E, 0x92722C85,
   0xA2BFE8A1, 0xA81A664B, 0xC24B8B70, 0xC76C51A3,
   0xD192E819, 0xD6990624, 0xF40E3585, 0x106AA070,
   0x19A4C116, 0x1E376C08, 0x2748774C, 0x34B0BCB5,
   0x391C0CB3, 0x4ED8AA4A, 0x5B9CCA4F, 0x682E6FF3,
   0x748F82EE, 0x78A5636F, 0x84C87814, 0x8CC70208,
   0x90BEFFFA, 0xA4506CEB, 0xBEF9A3F7, 0xC67178F2]

def sha256_K_std : List Nat :=
  [0x428A2F98, 0x71374491, 0xB5C0FBCF, 0xE9B5DBA5,
   0x3956C25B, 0x59F111F1, 0x923F82A4, 0xAB1C5ED5,
   0xD807AA98, 0x12835B01, 0x243185BE, 0x550C7DC3,
   0x72BE5D74, 0x80DEB1FE, 0x9BDC06A7, 0xC19BF174,
   0xE49B69C1, 0xEFBE4786, 0x0FC19DC6, 0x240CA1CC,
   0x2DE92C6F, 0x4A7484AA, 0x5CB0A9DC, 0x76F988DA,
   0x983E5152, 0xA831C66D, 0xB00327C8, 0xBF597FC7,
   0xC6E00BF3, 0xD5A79147, 0x06CA6351, 0x14292967,
   0x27B70A85, 0x2E1B2138, 0x4D2C6DFC, 0x53380D13,
   0x650A7354, 0x766A0ABB, 0x81C2C92E, 0x92722C85,
   0xA2BFE8A1, 0xA81A664B, 0xC24B8B70, 0xC76C51A3,
   0xD192E819, 0xD6990624, 0xF40E3585, 0x106AA070,
   0x19A4C116, 0x1E376C08, 0x2748774C, 0x34B0BCB5,
   0x391C0CB3, 0x4ED8AA4A, 0x5B9CCA4F, 0x682E6FF3,
   0x748F82EE, 0x78A5636F, 0x84C87814, 0x8CC70208,
   0x90BEFFFA, 0xA4506CEB, 0xBEF9A3F7, 0xC67178F2]

/-- One step of the message-schedule extension (line 90): with the words
computed so far newest first, prepend
`SIG1(W[i-2]) + W[i-7] + SIG0(W[i-15]) + W[i-16]` (wrapping). -/
def shaSchedStep (rev : List Nat) : List Nat :=
  w32 (shaSig1 (rev.getD 1 0) + rev.getD 6 0 + shaSig0 (rev.getD 14 0) + rev.getD 15 0) :: rev

/-- The 64-word message schedule from the 16 block words (lines 83-91). -/
def shaSched (ws : List Nat) : List Nat := (shaSchedStep^[48] ws.reverse).reverse

/-- The eight SHA-256 working variables. -/
structure SHAState where
  a : Nat
  b : Nat
  c : Nat
  d : Nat
  e : Nat
  f : Nat
  g : Nat
  h : Nat

/-- One SHA-256 round (lines 98-103). -/
def shaRound (st : SHAState) (kw : Nat × Nat) : SHAState :=
  let t1 := w32 (st.h + shaEp1 st.e + shaCh st.e st.f st.g + kw.1 + kw.2)
  let t2 := w32 (shaEp0 st.a + shaMaj st.a st.b st.c)
  ⟨w32 (t1 + t2), st.a, st.b, st.c, w32 (st.d + t1), st.e, st.f, st.g⟩

/-- The SHA-256 compression of one 16-word block into the chaining state
`H`, with round-constant table `K` (lines 84-113). -/
def sha256_block (K H ws16 : List Nat) : List Nat :=
  let ws := shaSched ws16
  let st0 : SHAState := ⟨H.getD 0 0, H.getD 1 0, H.getD 2 0, H.getD 3 0,
                         H.getD 4 0, H.getD 5 0, H.getD 6 0, H.getD 7 0⟩
  let stf := (K.zip ws).foldl shaRound st0
  [w32 (stf.a + H.getD 0 0), w32 (stf.b + H.getD 1 0), w32 (stf.c + H.getD 2 0),
   w32 (stf.d + H.getD 3 0), w32 (stf.e + H.getD 4 0), w32 (stf.f + H.getD 5 0),
   w32 (stf.g + H.getD 6 0), w32 (stf.h + H.getD 7 0)]

/-- Serialize the eight state words big-endian (lines 106-113). -/
def shaOut (ws : List Nat) : List Nat :=
  be32bytes (ws.getD 0 0) ++ be32bytes (ws.getD 1 0) ++ be32bytes (ws.getD 2 0) ++
  be32bytes (ws.getD 3 0) ++ be32bytes (ws.getD 4 0) ++ be32bytes (ws.getD 5 0) ++
  be32bytes (ws.getD 6 0) ++ be32bytes (ws.getD 7 0)

/-- The source's fixed single block for a 33-byte input (lines 75-81): the
input, the 0x80 delimiter, 28 zero bytes (22 written here, 6 more ahead of
the length), and the big-endian bit length 264 = 0x0108 in the last two
bytes. -/
def shaFastBlock (input : List Nat) : List Nat :=
  input ++ 0x80 :: (List.replicate 22 0 ++ [0, 0, 0, 0, 0, 0, 0x01, 0x08])

/-- `sha256_33` (sha256_rmd160_fast.h lines 68-114): the specialized SHA-256
of exactly 33 bytes, one block, fixed padding. -/
def sha256_33 (input : List Nat) : List Nat :=
  shaOut (sha256_block sha256_K_src sha256_H0_src (be32words (shaFastBlock input)))

/-- Standard SHA-256 padding: append 0x80, zero-fill to 56 mod 64, then the
64-bit big-endian bit length. -/
def shaPad (msg : List Nat) : List Nat :=
  msg ++ 0x80 :: (List.replicate ((119 - msg.length % 64) % 64) 0 ++ be64bytes (8 * msg.length))

/-- Standard SHA-256 of an arbitrary byte string per FIPS 180-4: pad, split
into 64-byte blocks, compress each block into the chaining state, serialize
big-endian. -/
def sha256_std (msg : List Nat) : List Nat :=
  shaOut ((chunks64 (shaPad msg)).foldl
    (fun H blk => sha256_block sha256_K_std H (be32words blk)) sha256_H0_std)

/-- RIPEMD-160 initial state as transcribed in the source (lines 118-120). -/
def rmd160_H0_src : List Nat :=
  [0x67452301, 0xEFCDAB89, 0x98BADCFE, 0x10325476, 0xC3D2E1F0]

/-- RIPEMD-160 initial chaining values of the published specification. -/
def rmd160_H0_std : List Nat :=
  [0x67452301, 0xEFCDAB89, 0x98BADCFE, 0x10325476, 0xC3D2E1F0]

/-- RIPEMD-160 selection function `F` (macro, line 122). -/
def rmdF (x y z : Nat) : Nat := x ^^^ y ^^^ z

/-- RIPEMD-160 selection function `G` (macro, line 123). -/
def rmdG (x y z : Nat) : Nat := (x &&& y) ||| (not32 x &&& z)

/-- RIPEMD-160 selection function `H` (macro, line 124). -/
def rmdH (x y z : Nat) : Nat := (x ||| not32 y) ^^^ z

/-- RIPEMD-160 selection function `I` (macro, line 125). -/
def rmdI (x y z : Nat) : Nat := (x &&& z) ||| (y &&& not32 z)

/-- RIPEMD-160 selection function `J` (macro, line 126). -/
def rmdJ (x y z : Nat) : Nat := x ^^^ (y ||| not32 z)

/-- Selection-function codes 0..4 for `F`, `G`, `H`, `I`, `J`. -/
def rmdSel (c : Nat) : Nat → Nat → Nat → Nat :=
  match c with
  | 0 => rmdF
  | 1 => rmdG
  | 2 => rmdH
  | 3 => rmdI
  | _ => rmdJ

/-- One RIPEMD-160 round description: selection-function code, added
constant, message-word index, and rotate amount. -/
structure RmdRound where
  fc : Nat
  k : Nat
  xi : Nat
  s : Nat
  deriving DecidableEq

/-- The five RIPEMD-160 working registers of one line. -/
structure RmdState where
  a : Nat
  b : Nat
  c : Nat
  d : Nat
  e : Nat

/-- One `RMD_ROUND` application (macro, lines 130-134) together with the
register rotation the source's unrolled call sequence performs: with
registers `(a, b, c, d, e)` the macro computes
`t = ROL32(a + f(b,c,d) + X[xi] + k, s) + e` and `c = ROL32(c, 10)` (all
wrapping), and the following call reads the registers as `(e, t, b, c, d)`. -/
def rmdStep (X : List Nat) (st : RmdState) (r : RmdRound) : RmdState :=
  let t := w32 (rol32 (w32 (st.a + rmdSel r.fc st.b st.c st.d + X.getD r.xi 0 + r.k)) r.s + st.e)
  ⟨st.e, t, st.b, rol32 st.c 10, st.d⟩

/-- Run one compression line over its 80 round descriptions. -/
def rmdLine (X : List Nat) (rounds : List RmdRound) (st : RmdState) : RmdState :=
  rounds.foldl (rmdStep X) st

/-- Sixteen rounds sharing one selection function and one constant. -/
def rmdBlockRounds (fc k : Nat) (xs ss : List Nat) : List RmdRound :=
  (xs.zip ss).map fun p => ⟨fc, k, p.1, p.2⟩

/-- The left line of the source, transcribed from the 80 `RMD_ROUND`
calls at sha256_rmd160_fast.h lines 162-249: five groups of sixteen with
selection functions F,G,H,I,J (codes 0-4) and the group constant; each
group lists its `X[..]` indices and its shifts in call order. -/
def rmdLeftRounds_src : List RmdRound :=
  rmdBlockRounds 0 0x00000000
    [0, 1, 2, 3, 4, 5, 6, 7, 8, 9, 10, 11, 12, 13, 14, 15]
    [11, 14, 15, 12, 5, 8, 7, 9, 11, 13, 14, 15, 6, 7, 9, 8] ++
  rmdBlockRounds 1 0x5A827999
    [7, 4, 13, 1, 10, 6, 15, 3, 12, 0, 9, 5, 2, 14, 11, 8]
    [7, 6, 8, 13, 11, 9, 7, 15, 7, 12, 15, 9, 11, 7, 13, 12] ++
  rmdBlockRounds 2 0x6ED9EBA1
    [3, 10, 14, 4, 9, 15, 8, 1, 2, 7, 0, 6, 13, 11, 5, 12]
    [11, 13, 6, 7, 14, 9, 13, 15, 14, 8, 13, 6, 5, 12, 7, 5] ++
  rmdBlockRounds 3 0x8F1BBCDC
    [1, 9, 11, 10, 0, 8, 12, 4, 13, 3, 7, 15, 14, 5, 6, 2]
    [11, 12, 14, 15, 14, 15, 9, 8, 9, 14, 5, 6, 8, 6, 5, 12] ++
  rmdBlockRounds 4 0xA953FD4E
    [4, 0, 5, 9, 7, 12, 2, 10, 14, 1, 3, 8, 11, 6, 15, 13]
    [9, 15, 5, 11, 6, 8, 13, 12, 5, 12, 13, 14, 11, 8, 5, 6]

/-- The right line of the source, transcribed from the 80 `RMD_ROUND`
calls at lines 253-340: selection functions J,I,H,G,F (codes 4-0). -/
def rmdRightRounds_src : List RmdRound :=
  rmdBlockRounds 4 0x50A28BE6
    [5, 14, 7, 0, 9, 2, 11, 4, 13, 6, 15, 8, 1, 10, 3, 12]
    [8, 9, 9, 11, 13, 15, 15, 5, 7, 7, 8, 11, 14, 14, 12, 6] ++
  rmdBlockRounds 3 0x5C4DD124
    [6, 11, 3, 7, 0, 13, 5, 10, 14, 15, 8, 12, 4, 9, 1, 2]
    [9, 13, 15, 7, 12, 8, 9, 11, 7, 7, 12, 7, 6, 15, 13, 11] ++
  rmdBlockRounds 2 0x6D703EF3
    [15, 5, 1, 3, 7, 14, 6, 9, 11, 8, 12, 2, 10, 0, 4, 13]
    [9, 7, 15, 11, 8, 6, 6, 14, 12, 13, 5, 14, 13, 13, 7, 5] ++
  rmdBlockRounds 1 0x7A6D76E9
    [8, 6, 4, 1, 3, 11, 15, 0, 5, 12, 2, 13, 9, 7, 10, 14]
    [15, 5, 8, 11, 14, 14, 6, 14, 6, 9, 12, 9, 12, 5, 15, 8] ++
  rmdBlockRounds 0 0x00000000
    [12, 15, 10, 4, 1, 5, 8, 7, 6, 2, 13, 14, 0, 3, 9, 11]
    [8, 5, 12, 9, 12, 5, 14, 6, 8, 13, 6, 5, 15, 13, 11, 11]

/-- Message-word order of the published RIPEMD-160 spec, left line. -/
def rmdRhoL : List Nat :=
  [0, 1, 2, 3, 4, 5, 6, 7, 8, 9, 10, 11, 12, 13, 14, 15,
   7, 4, 13, 1, 10, 6, 15, 3, 12, 0, 9, 5, 2, 14, 11, 8,
   3, 10, 14, 4, 9, 15, 8, 1, 2, 7, 0, 6, 13, 11, 5, 12,
   1, 9, 11, 10, 0, 8, 12, 4, 13, 3, 7, 15, 14, 5, 6, 2,
   4, 0, 5, 9, 7, 12, 2, 10, 14, 1, 3, 8, 11, 6, 15, 13]

/-- Message-word order of the published RIPEMD-160 spec, right line. -/
def rmdRhoR : List Nat :=
  [5, 14, 7, 0, 9, 2, 11, 4, 13, 6, 15, 8, 1, 10, 3, 12,
   6, 11, 3, 7, 0, 13, 5, 10, 14, 15, 8, 12, 4, 9, 1, 2,
   15, 5, 1, 3, 7, 14, 6, 9, 11, 8, 12, 2, 10, 0, 4, 13,
   8, 6, 4, 1, 3, 11, 15, 0, 5, 12, 2, 13, 9, 7, 10, 14,
   12, 15, 10, 4, 1, 5, 8, 7, 6, 2, 13, 14, 0, 3, 9, 11]

/-- Rotate amounts of the published RIPEMD-160 spec, left line. -/
def rmdShiftL : List Nat :=
  [11, 14, 15, 12, 5, 8, 7, 9, 11, 13, 14, 15, 6, 7, 9, 8,
   7, 6, 8, 13, 11, 9, 7, 15, 7, 12, 15, 9, 11, 7, 13, 12,
   11, 13, 6, 7, 14, 9, 13, 15, 14, 8, 13, 6, 5, 12, 7, 5,
   11, 12, 14, 15, 14, 15, 9, 8, 9, 14, 5, 6, 8, 6, 5, 12,
   9, 15, 5, 11, 6, 8, 13, 12, 5, 12, 13, 14, 11, 8, 5, 6]

/-- Rotate amounts of the published RIPEMD-160 spec, right line. -/
def rmdShiftR : List Nat :=
  [8, 9, 9, 11, 13, 15, 15, 5, 7, 7, 8, 11, 14, 14, 12, 6,
   9, 13, 15, 7, 12, 8, 9, 11, 7, 7, 12, 7, 6, 15, 13, 11,
   9, 7, 15, 11, 8, 6, 6, 14, 12, 13, 5, 14, 13, 13, 7, 5,
   15, 5, 8, 11, 14, 14, 6, 14, 6, 9, 12, 9, 12, 5, 15, 8,
   8, 5, 12, 9, 12, 5, 14, 6, 8, 13, 6, 5, 15, 13, 11, 11]


/-- Function order of the published spec: left line F,G,H,I,J (codes). -/
def rmdFcL : List Nat := [0, 1, 2, 3, 4]

/-- Function order of the published spec: right line J,I,H,G,F (codes). -/
def rmdFcR : List Nat := [4, 3, 2, 1, 0]

/-- Left-line added constants of the published spec. -/
def rmdKL : List Nat := [0x00000000, 0x5A827999, 0x6ED9EBA1, 0x8F1BBCDC, 0xA953FD4E]

/-- Right-line added constants of the published spec. -/
def rmdKR : List Nat := [0x50A28BE6, 0x5C4DD124, 0x6D703EF3, 0x7A6D76E9, 0x00000000]

/-- The standard left line: round `j` uses function `j/16`, constant
`KL[j/16]`, word `rho_L[j]`, shift `s_L[j]`. -/
def rmdLeftRounds_std : List RmdRound :=
  (List.range 80).map fun j =>
    ⟨rmdFcL.getD (j / 16) 0, rmdKL.getD (j / 16) 0, rmdRhoL.getD j 0, rmdShiftL.getD j 0⟩

/-- The standard right line. -/
def rmdRightRounds_std : List RmdRound :=
  (List.range 80).map fun j =>
    ⟨rmdFcR.getD (j / 16) 0, rmdKR.getD (j / 16) 0, rmdRhoR.getD j 0, rmdShiftR.getD j 0⟩

/-- Load the five chaining values into a line's registers. -/
def rmdInit (h : List Nat) : RmdState :=
  ⟨h.getD 0 0, h.getD 1 0, h.getD 2 0, h.getD 3 0, h.getD 4 0⟩

/-- The source's final state combination (lines 342-353): with left result
`(al..el)` and right result `(ar..er)`,
`h0 = H0[1]+cl+dr`, `h1 = H0[2]+dl+er`, `h2 = H0[3]+el+ar`,
`h3 = H0[4]+al+br`, `h4 = H0[0]+bl+cr` (wrapping). -/
def rmdFinalizeSrc (L R : RmdState) : List Nat :=
  [w32 (rmd160_H0_src.getD 1 0 + L.c + R.d),
   w32 (rmd160_H0_src.getD 2 0 + L.d + R.e),
   w32 (rmd160_H0_src.getD 3 0 + L.e + R.a),
   w32 (rmd160_H0_src.getD 4 0 + L.a + R.b),
   w32 (rmd160_H0_src.getD 0 0 + L.b + R.c)]

/-- The standard RIPEMD-160 combination of one block's two line results with
the incoming chaining values `h`. -/
def rmdFinalizeStd (h : List Nat) (L R : RmdState) : List Nat :=
  [w32 (h.getD 1 0 + L.c + R.d),
   w32 (h.getD 2 0 + L.d + R.e),
   w32 (h.getD 3 0 + L.e + R.a),
   w32 (h.getD 4 0 + L.a + R.b),
   w32 (h.getD 0 0 + L.b + R.c)]

/-- Serialize the five state words little-endian (lines 356-360). -/
def rmdOut (ws : List Nat) : List Nat :=
  le32bytes (ws.getD 0 0) ++ le32bytes (ws.getD 1 0) ++ le32bytes (ws.getD 2 0) ++
  le32bytes (ws.getD 3 0) ++ le32bytes (ws.getD 4 0)

/-- The source's fixed message words for a 32-byte input (lines 144-154):
eight little-endian input words, then `X[8] = 0x80`, `X[9..13] = 0`,
`X[14] = 256` (the little-endian bit length) and `X[15] = 0`. -/
def rmdFastX (input : List Nat) : List Nat :=
  le32words input ++ [0x80, 0, 0, 0, 0, 0, 256, 0]

/-- `rmd160_32` (sha256_rmd160_fast.h lines 137-361): the specialized
RIPEMD-160 of exactly 32 bytes, one block, fixed padding, the 80 unrolled
rounds of each line transcribed in `rmdLeftRounds_src`/`rmdRightRounds_src`. -/
def rmd160_32 (input : List Nat) : List Nat :=
  let X := rmdFastX input
  let L := rmdLine X rmdLeftRounds_src (rmdInit rmd160_H0_src)
  let R := rmdLine X rmdRightRounds_src (rmdInit rmd160_H0_src)
  rmdOut (rmdFinalizeSrc L R)

/-- One standard RIPEMD-160 block transformation on chaining values `h`. -/
def rmd160_block_std (h blk : List Nat) : List Nat :=
  let X := le32words blk
  let L := rmdLine X rmdLeftRounds_std (rmdInit h)
  let R := rmdLine X rmdRightRounds_std (rmdInit h)
  rmdFinalizeStd h L R

/-- Standard RIPEMD-160 padding: append 0x80, zero-fill to 56 mod 64, then
the 64-bit little-endian bit length. -/
def rmdPad (msg : List Nat) : List Nat :=
  msg ++ 0x80 :: (List.replicate ((119 - msg.length % 64) % 64) 0 ++ le64bytes (8 * msg.length))

/-- Standard RIPEMD-160 of an arbitrary byte string: pad, split into 64-byte
blocks, run both lines per block, combine, serialize little-endian. -/
def rmd160_std (msg : List Nat) : List Nat :=
  rmdOut ((chunks64 (rmdPad msg)).foldl rmd160_block_std rmd160_H0_std)

/-- `hash160_fast` (sha256_rmd160_fast.h lines 364-368): the composition
`rmd160_32` of `sha256_33`. -/
def hash160_fast (input : List Nat) : List Nat := rmd160_32 (sha256_33 input)

/-- The standard composition `RIPEMD160(SHA256(input))`. -/
def hash160_std (input : List Nat) : List Nat := rmd160_std (sha256_std input)

/-- The 33-byte compressed serialization of the secp256k1 generator point
(the `pub33` the program derives for scalar 1; even y, so prefix 02). -/
def compressedG : List Nat :=
  [0x02, 0x79, 0xBE, 0x66, 0x7E, 0xF9, 0xDC, 0xBB, 0xAC, 0x55, 0xA0, 0x62,
   0x95, 0xCE, 0x87, 0x0B, 0x07, 0x02, 0x9B, 0xFC, 0xDB, 0x2D, 0xCE, 0x28,
   0xD9, 0x59, 0xF2, 0x81, 0x5B, 0x16, 0xF8, 0x17, 0x98]

/-- The fixed published hash160 of the compressed generator point (the
`expected` self-test constant, c_scanner.c lines 388-391). -/
def hash160G : List Nat :=
  [0x75, 0x1e, 0x76, 0xe8, 0x19, 0x91, 0x96, 0xd4, 0x54, 0x94,
   0x1c, 0x45, 0xd1, 0xb3, 0xa3, 0x23, 0xf1, 0x43, 0x3b, 0xd6]


theorem xor_srl_ne_zero (x k : Nat) (hk : 0 < k) (hxlt : x < M64) (h0 : x ≠ 0) :
    x ^^^ (x >>> k) ≠ 0 := by
  intro h
  have hx : x = x >>> k := Nat.xor_eq_zero.mp h
  have hiter : ∀ m : Nat, x = x >>> (k * m) := by
    intro m
    induction m with
    | zero => simp
    | succ n ih =>
      have hstep : x >>> (k * (n + 1)) = (x >>> (k * n)) >>> k := by
        rw [← Nat.shiftRight_add, Nat.mul_succ]
      rw [hstep, ← ih, ← hx]
  have hzero : x >>> (k * 64) = 0 := by
    rw [Nat.shiftRight_eq_div_pow]
    apply Nat.div_eq_of_lt
    have h64 : (64 : Nat) ≤ k * 64 := by omega
    calc x < M64 := hxlt
      _ = 2 ^ 64 := by norm_num [M64]
      _ ≤ 2 ^ (k * 64) := Nat.pow_le_pow_right (by norm_num) h64
  exact h0 ((hiter 64).trans hzero)

theorem xor_shl25_ne_zero (x : Nat) (hxlt : x < M64) (h0 : x ≠ 0) :
    x ^^^ ((x <<< 25) % M64) ≠ 0 := by
  intro h
  have hx : x = (x <<< 25) % M64 := Nat.xor_eq_zero.mp h
  have hM : M64 = 2 ^ 64 := by norm_num [M64]
  apply h0
  apply Nat.eq_of_testBit_eq
  intro i
  rw [Nat.zero_testBit]
  induction i using Nat.strong_induction_on with
  | _ i ih =>
    rcases lt_or_ge i 64 with hi | hi
    · have hb : x.testBit i = ((x <<< 25) % M64).testBit i := by conv_lhs => rw [hx]
      rw [hb, hM, Nat.testBit_mod_two_pow, Nat.testBit_shiftLeft]
      rcases lt_or_ge i 25 with h25 | h25
      · have : ¬ (i ≥ 25) := by omega
        simp [this]
      · have hrec : x.testBit (i - 25) = false := ih (i - 25) (by omega)
        simp [hrec]
    · apply Nat.testBit_eq_false_of_lt
      calc x < M64 := hxlt
        _ = 2 ^ 64 := hM
        _ ≤ 2 ^ i := Nat.pow_le_pow_right (by norm_num) hi

theorem xor_srl_lt (x k : Nat) (hxlt : x < M64) : x ^^^ (x >>> k) < M64 := by
  have h1 : x >>> k < M64 := by
    rw [Nat.shiftRight_eq_div_pow]
    exact lt_of_le_of_lt (Nat.div_le_self _ _) hxlt
  have hM : M64 = 2 ^ 64 := by norm_num [M64]
  rw [hM] at hxlt h1 ⊢
  exact Nat.xor_lt_two_pow hxlt h1

theorem xorshift_step_ok (s : Nat) (hs : s < M64) (h0 : s ≠ 0) :
    (xorshift64_next s).1 ≠ 0 ∧ (xorshift64_next s).1 < M64 := by
  have hMpos : 0 < M64 := by norm_num [M64]
  have hM : M64 = 2 ^ 64 := by norm_num [M64]
  have h1ne : s ^^^ (s >>> 12) ≠ 0 := xor_srl_ne_zero s 12 (by norm_num) hs h0
  have h1lt : s ^^^ (s >>> 12) < M64 := xor_srl_lt s 12 hs
  set x1 := s ^^^ (s >>> 12) with hx1
  have h2ne : x1 ^^^ ((x1 <<< 25) % M64) ≠ 0 := xor_shl25_ne_zero x1 h1lt h1ne
  have h2lt : x1 ^^^ ((x1 <<< 25) % M64) < M64 := by
    have hmod : (x1 <<< 25) % M64 < M64 := Nat.mod_lt _ hMpos
    rw [hM] at h1lt hmod ⊢
    exact Nat.xor_lt_two_pow h1lt hmod
  set x2 := x1 ^^^ ((x1 <<< 25) % M64) with hx2
  have h3ne : x2 ^^^ (x2 >>> 27) ≠ 0 := xor_srl_ne_zero x2 27 (by norm_num) h2lt h2ne
  have h3lt : x2 ^^^ (x2 >>> 27) < M64 := xor_srl_lt x2 27 h2lt
  exact ⟨h3ne, h3lt⟩

/-- C9: the worker PRNG never reaches the all-zero fixed point: the seed is
nonzero (a zero draw is replaced by 1), every `xorshift64_next` step maps a
nonzero 64-bit state to a nonzero 64-bit state, and hence the state stays
nonzero forever. -/
theorem prng_state_never_zero (u tid : Nat) (hu : u < M64) :
    seedState u tid ≠ 0 ∧ seedState u tid < M64 ∧
    (∀ s : Nat, s < M64 → s ≠ 0 →
      (xorshift64_next s).1 ≠ 0 ∧ (xorshift64_next s).1 < M64) ∧
    (∀ n : Nat, rngIter (seedState u tid) n ≠ 0 ∧ rngIter (seedState u tid) n < M64) := by
  have hMpos : 0 < M64 := by norm_num [M64]
  have hM : M64 = 2 ^ 64 := by norm_num [M64]
  have hseed : seedState u tid ≠ 0 ∧ seedState u tid < M64 := by
    by_cases hz : u ^^^ (((tid + 1) * 6364136223846793005) % M64) = 0
    · have : seedState u tid = 1 := by simp [seedState, hz]
      rw [this]
      exact ⟨by norm_num, by norm_num [M64]⟩
    · have heq : seedState u tid = u ^^^ (((tid + 1) * 6364136223846793005) % M64) := by
        simp [seedState, hz]
      rw [heq]
      refine ⟨hz, ?_⟩
      have hmod : ((tid + 1) * 6364136223846793005) % M64 < M64 := Nat.mod_lt _ hMpos
      rw [hM] at hu hmod ⊢
      exact Nat.xor_lt_two_pow hu hmod
  refine ⟨hseed.1, hseed.2, xorshift_step_ok, ?_⟩
  intro n
  induction n with
  | zero => exact hseed
  | succ n ih => exact xorshift_step_ok _ ih.2 ih.1

theorem prng_state_never_zero_witness :
    (0 : Nat) < M64 ∧ rngIter (seedState 0 0) 1 ≠ 0 :=
  ⟨by decide, ((prng_state_never_zero 0 0 (by decide)).2.2.2 1).1⟩

theorem random_start_hi_le (s : Nat) : (random_start s).2.1 ≤ 7 := by
  have h3 : (xorshift64_next s).2 &&& 3 ≤ 3 := Nat.and_le_right
  simp only [random_start]
  omega

theorem random_start_lo_lt (s : Nat) : (random_start s).2.2 < M64 := by
  have hMpos : 0 < M64 := by norm_num [M64]
  simp only [random_start, xorshift64_next]
  exact Nat.mod_lt _ hMpos

/-- C1 (code bug): the sampler never reaches the announced range.  For the
concrete worker seed 1 the first start is `(hi, lo) = (5, 12380297144915551517)`,
and for every PRNG state the sampled scalar `hi * 2 ^ 64 + lo` is below
`RANGE_MIN = 2 ^ 70`: `random_start` draws `hi = 4 + (r & 3) ∈ {4, ..., 7}`,
which makes the scalar at most `2 ^ 67 - 1`, so no sampled start ever lies in
the inclusive range `[RANGE_MIN, RANGE_MAX]` the program announces. -/
theorem sampled_start_below_announced_range :
    (random_start 1).2.1 = 5 ∧ (random_start 1).2.2 = 12380297144915551517 ∧
    ∀ s : Nat,
      startScalar (random_start s).2.1 (random_start s).2.2 < RANGE_MIN ∧
      ¬(RANGE_MIN ≤ startScalar (random_start s).2.1 (random_start s).2.2 ∧
        startScalar (random_start s).2.1 (random_start s).2.2 ≤ RANGE_MAX) := by
  refine ⟨by decide, by decide, ?_⟩
  intro s
  have h1 := random_start_hi_le s
  have h2 := random_start_lo_lt s
  unfold startScalar RANGE_MIN RANGE_MAX
  unfold M64 at h2 ⊢
  omega

/-- C4: carry propagation of the reported key.  With 64-bit `lo` and offset,
the reported key is `(hi + 1, (lo + offset) mod 2 ^ 64)` exactly when
`lo + offset` overflows 64 bits, and `(hi, lo + offset)` otherwise. -/
theorem found_key_carry_correct (hi lo o : Nat)
    (hhi : hi + 1 < M64) (hlo : lo < M64) (ho : o < M64) :
    foundKey hi lo o =
      if M64 ≤ lo + o then (hi + 1, (lo + o) % M64) else (hi, lo + o) := by
  simp only [foundKey]
  by_cases hc : M64 ≤ lo + o
  · have hlt : (lo + o) % M64 < lo := by unfold M64 at *; omega
    have hmodhi : (hi + 1) % M64 = hi + 1 := Nat.mod_eq_of_lt hhi
    rw [if_pos hc, if_pos hlt, hmodhi]
  · have hmod : (lo + o) % M64 = lo + o := Nat.mod_eq_of_lt (by unfold M64 at *; omega)
    have hge : ¬ ((lo + o) % M64 < lo) := by unfold M64 at *; omega
    have hmodhi : (hi + 0) % M64 = hi := by
      rw [Nat.add_zero]
      exact Nat.mod_eq_of_lt (by unfold M64 at *; omega)
    rw [if_neg hc, if_neg hge, hmodhi, hmod]

theorem found_key_carry_correct_witness :
    foundKey 4 18446744073709551615 5 = (5, 4) := by
  have h := found_key_carry_correct 4 18446744073709551615 5
    (by norm_num [M64]) (by norm_num [M64]) (by norm_num [M64])
  rw [h]
  norm_num [M64]

/-- C7: the four-byte prefix filter never changes the match decision: for
every 20-byte candidate hash the filtered test (word compare, then full
`memcmp` only on prefix equality) agrees with the direct full comparison. -/
theorem filter_equiv_direct (h : List Nat) (hl : h.length = 20) :
    filteredMatch h = directMatch h := by
  by_cases he : h = TARGET_H160
  · subst he
    simp [filteredMatch, directMatch, targetPre32]
  · simp [filteredMatch, directMatch, he]

theorem filter_equiv_direct_witness :
    TARGET_H160.length = 20 ∧ filteredMatch TARGET_H160 = directMatch TARGET_H160 :=
  ⟨by decide, filter_equiv_direct TARGET_H160 (by decide)⟩

theorem byte_and_255 (x : Nat) : x &&& 255 = x % 256 := by
  have h := Nat.and_pow_two_sub_one_eq_mod x 8
  norm_num at h
  exact h

/-- C8: `make_scalar` is lossless on the pairs the program constructs: for
`hi ≤ 8` the 32-byte big-endian buffer it fills encodes exactly
`hi * 2 ^ 64 + lo`, even though only the low eight bits of `hi` are stored. -/
theorem make_scalar_lossless (hi lo : Nat) (hhi : hi ≤ 8) (hlo : lo < M64) :
    beBytesToNat (make_scalar_b32 hi lo) = hi * 2 ^ 64 + lo := by
  have hh : hi &&& 255 = hi := by
    rw [byte_and_255]
    exact Nat.mod_eq_of_lt (by omega)
  have hb : ∀ k : Nat, (lo >>> k) &&& 255 = lo / 2 ^ k % 256 := by
    intro k
    rw [Nat.shiftRight_eq_div_pow, byte_and_255]
  have hb0 : lo &&& 255 = lo % 256 := byte_and_255 lo
  simp only [make_scalar_b32, beBytesToNat, List.replicate, List.cons_append,
    List.nil_append, List.foldl_cons, List.foldl_nil, hh, hb, hb0]
  norm_num
  have c1 : lo / 72057594037927936 = lo / 281474976710656 / 256 := by
    rw [Nat.div_div_eq_div_mul]
  have c2 : lo / 281474976710656 = lo / 1099511627776 / 256 := by
    rw [Nat.div_div_eq_div_mul]
  have c3 : lo / 1099511627776 = lo / 4294967296 / 256 := by
    rw [Nat.div_div_eq_div_mul]
  have c4 : lo / 4294967296 = lo / 16777216 / 256 := by
    rw [Nat.div_div_eq_div_mul]
  have c5 : lo / 16777216 = lo / 65536 / 256 := by
    rw [Nat.div_div_eq_div_mul]
  have c6 : lo / 65536 = lo / 256 / 256 := by
    rw [Nat.div_div_eq_div_mul]
  unfold M64 at hlo
  omega

theorem make_scalar_lossless_witness :
    beBytesToNat (make_scalar_b32 8 18446744073709551615) =
      8 * 2 ^ 64 + 18446744073709551615 :=
  make_scalar_lossless 8 18446744073709551615 (by norm_num) (by norm_num [M64])

theorem jacBatch_eq {G : Type} [AddMonoid G] (P g : G) (k : Nat) :
    jacBatch P g k = P + k • g := by
  induction k with
  | zero => simp [jacBatch]
  | succ k ih =>
    rw [jacBatch, ih, succ_nsmul, add_assoc]

theorem currentJac_eq {G : Type} [AddMonoid G] (P g : G) (b : Nat) :
    currentJac P g b = P + (b * BATCH_SIZE) • g := by
  induction b with
  | zero => simp [currentJac]
  | succ b ih =>
    have hB : (BATCH_SIZE - 1) • g + g = BATCH_SIZE • g := by
      rw [← succ_nsmul]
      norm_num [BATCH_SIZE]
    calc currentJac P g (b + 1)
        = (P + (b * BATCH_SIZE) • g) + ((BATCH_SIZE - 1) • g + g) := by
          rw [currentJac, advanceCurrent, jacBatch_eq, ih, add_assoc]
      _ = P + ((b * BATCH_SIZE) • g + BATCH_SIZE • g) := by rw [hB, add_assoc]
      _ = P + (b * BATCH_SIZE + BATCH_SIZE) • g := by rw [add_nsmul]
      _ = P + ((b + 1) * BATCH_SIZE) • g := by rw [Nat.succ_mul]

/-- C3: batch/sequential equivalence.  With the external curve operations
modelled as a correct additive monoid (scalar multiplication of the
generator `g` is `s • g`, point addition is `+`, batch normalization is the
identity), the point the worker tests at batch `b`, index `i` equals the
single scalar multiplication of `start + b * BATCH_SIZE + i`. -/
theorem batch_point_eq_scalar_mul (G : Type) [AddMonoid G] (g : G) (s b i : Nat)
    (_hb : b < NUM_BATCHES) (_hi : i < BATCH_SIZE) :
    batchPoint (s • g) g b i = (s + (b * BATCH_SIZE + i)) • g := by
  rw [batchPoint, jacBatch_eq, currentJac_eq, add_assoc, ← add_nsmul, ← add_nsmul]

theorem batch_point_eq_scalar_mul_witness :
    0 < NUM_BATCHES ∧ 1 < BATCH_SIZE ∧
      batchPoint ((5 : Nat) • (3 : Nat)) 3 0 1 = (5 + (0 * BATCH_SIZE + 1)) • (3 : Nat) :=
  ⟨by decide, by decide, batch_point_eq_scalar_mul Nat 3 5 0 1 (by decide) (by decide)⟩

theorem flushLocal_eq (s : CounterState) :
    flushLocal s = ⟨0, s.flushed + s.localCount⟩ := by
  rcases s with ⟨l, f⟩
  unfold flushLocal
  split <;> simp_all

theorem afterBatch_sum (s : CounterState) :
    (afterBatch s).localCount + (afterBatch s).flushed
      = s.localCount + s.flushed + BATCH_SIZE := by
  rcases s with ⟨l, f⟩
  by_cases hc : FLUSH_THRESHOLD ≤ l + BATCH_SIZE
  · simp [afterBatch, hc]
    try omega
  · simp [afterBatch, hc]
    try omega

theorem afterBatch_iter_sum (n : Nat) (s : CounterState) :
    (afterBatch^[n] s).localCount + (afterBatch^[n] s).flushed
      = s.localCount + s.flushed + BATCH_SIZE * n := by
  induction n with
  | zero => simp
  | succ n ih =>
    rw [Function.iterate_succ_apply', afterBatch_sum, ih]
    ring

theorem runChunk_eq (s : CounterState) (n : Nat) :
    runChunk s n = ⟨0, s.localCount + s.flushed + BATCH_SIZE * n⟩ := by
  rw [runChunk, flushLocal_eq]
  have h := afterBatch_iter_sum n s
  have : (afterBatch^[n] s).flushed + (afterBatch^[n] s).localCount
      = s.localCount + s.flushed + BATCH_SIZE * n := by omega
  rw [this]

theorem runChunks_eq (ns : List Nat) :
    ∀ s : CounterState, s.localCount = 0 →
      ns.foldl runChunk s = ⟨0, s.flushed + BATCH_SIZE * ns.sum⟩ := by
  induction ns with
  | nil =>
    intro s h
    rcases s with ⟨l, f⟩
    simp_all
  | cons n ns ih =>
    intro s h
    rw [List.foldl_cons, runChunk_eq, ih _ rfl]
    simp [List.sum_cons, h]
    ring

/-- C5 counterexample: a worker that matches at the very first key of its
first batch evaluated one key but flushes nothing, so its contribution to the
shared keys-checked counter is 0, not 1: the match path jumps to `done`
before `local_count += BATCH_SIZE`, losing the keys of the partial batch. -/
theorem counter_misses_match_batch :
    (workerRun [] (.matched 0 0)).flushed = 0 ∧
    keysEvaluated [] (.matched 0 0) = 1 ∧
    (workerRun [] (.matched 0 0)).flushed ≠ keysEvaluated [] (.matched 0 0) := by
  decide

/-- C5 (amended): the worker's accounting is exact for completed batches: the
local tally is flushed at the threshold and at every loop exit, the run ends
with a zero local tally, the flushed total equals `BATCH_SIZE` times the
number of completed batches, and the keys actually evaluated exceed the
flushed total exactly by the `i + 1` keys of a final partial batch ended by
the worker's own match (and by nothing when the worker stops on the flag). -/
theorem counter_conservation_completed_batches (ns : List Nat) (t : LoopExit) :
    (workerRun ns t).localCount = 0 ∧
    (workerRun ns t).flushed
      = BATCH_SIZE * (ns.sum + match t with | .stopped => 0 | .matched b _ => b) ∧
    keysEvaluated ns t
      = (workerRun ns t).flushed
        + match t with | .stopped => 0 | .matched _ i => i + 1 := by
  have hchunks : ns.foldl runChunk ⟨0, 0⟩ = ⟨0, BATCH_SIZE * ns.sum⟩ := by
    rw [runChunks_eq ns ⟨0, 0⟩ rfl]
    simp
  cases t with
  | stopped =>
    refine ⟨?_, ?_, ?_⟩ <;> simp [workerRun, keysEvaluated, hchunks]
  | matched b i =>
    have hiter := afterBatch_iter_sum b (⟨0, BATCH_SIZE * ns.sum⟩ : CounterState)
    simp [BATCH_SIZE] at hiter
    refine ⟨?_, ?_, ?_⟩ <;>
      simp [workerRun, keysEvaluated, hchunks, flushLocal_eq, BATCH_SIZE] <;>
      omega

/-- C6 counterexample: `report_found` neither tests nor atomically exchanges
the found flag, and the inner serialize/hash/compare loop never re-reads
`g_found`, so two workers that both confirm a match before either stores the
flag both run the reporting path to completion: the result file is written
twice, refuting "exactly one reporting path runs to completion - one
result-file write". -/
theorem two_reports_both_complete :
    (report_found 5 7 (report_found 4 9 initGlobal)).fileWrites = 2 ∧
    (report_found 4 9 initGlobal).found = true ∧
    (report_found 5 7 (report_found 4 9 initGlobal)).foundKeyRec = some (5, 7) := by
  decide

/-- C6 (amended): the found flag is monotonic - every write the program ever
issues stores `true` (report_found line 190 and the signal handler line 323),
so the flag never returns to false once set - but the false-to-true
transition excludes nothing: `report_found` runs to completion regardless of
the flag's current state, performing its file write unconditionally, so each
worker that confirms a match writes the result file once. -/
theorem found_flag_monotonic_reports_unguarded :
    (∀ (g : GlobalState) (hi lo : Nat),
      (report_found hi lo g).found = true ∧
      (report_found hi lo g).fileWrites = g.fileWrites + 1 ∧
      (report_found hi lo g).foundKeyRec = some (hi, lo)) ∧
    (∀ (ops : List GlobalOp) (g : GlobalState), g.found = true →
      (applyOps g ops).found = true) := by
  constructor
  · intro g hi lo
    exact ⟨rfl, rfl, rfl⟩
  · intro ops
    induction ops with
    | nil => intro g h; exact h
    | cons op ops ih =>
      intro g h
      rw [applyOps]
      apply ih
      cases op <;> simp [applyOp, report_found, h]

theorem found_flag_monotonic_witness :
    (applyOps (report_found 4 9 initGlobal) [GlobalOp.signalStop, GlobalOp.flush 3]).found = true :=
  found_flag_monotonic_reports_unguarded.2 [GlobalOp.signalStop, GlobalOp.flush 3]
    (report_found 4 9 initGlobal) (by decide)

/-- C10: a worker whose scratch-buffer allocation fails (either buffer)
returns before its first access to shared state: whatever the rest of the
thread body would have done, the global state - keys-checked counter, found
flag, result file and recorded key - is returned unchanged. -/
theorem alloc_failure_preserves_shared (allocJac allocAff : Bool)
    (rest : GlobalState → GlobalState) (g : GlobalState)
    (h : ¬(allocJac = true ∧ allocAff = true)) :
    scanner_thread_effect allocJac allocAff rest g = g := by
  unfold scanner_thread_effect
  cases allocJac <;> cases allocAff <;> simp_all

theorem alloc_failure_preserves_shared_witness :
    scanner_thread_effect false true
      (fun g => { g with totalKeys := g.totalKeys + 5 }) initGlobal = initGlobal :=
  alloc_failure_preserves_shared false true _ initGlobal (by decide)

theorem chunksAux_nil (n : Nat) : chunksAux n [] = [] := by
  cases n <;> rfl

theorem chunks64_single (l : List Nat) (h : l.length = 64) : chunks64 l = [l] := by
  rcases l with _ | ⟨b, rest⟩
  · simp at h
  · have htake : (b :: rest).take 64 = b :: rest := by
      rw [← h]
      exact List.take_length ..
    have hdrop : (b :: rest).drop 64 = [] := by
      rw [← h]
      exact List.drop_length ..
    rw [chunks64, List.length_cons]
    rw [show chunksAux (rest.length + 1) (b :: rest)
        = ((b :: rest).take 64) :: chunksAux rest.length ((b :: rest).drop 64) from rfl]
    rw [htake, hdrop, chunksAux_nil]

theorem shaPad_33 (l : List Nat) (h : l.length = 33) : shaPad l = shaFastBlock l := by
  unfold shaPad shaFastBlock
  rw [h]
  have h1 : (119 - 33 % 64) % 64 = 22 := by norm_num
  have h2 : be64bytes (8 * 33) = [0, 0, 0, 0, 0, 0, 0x01, 0x08] := by decide
  rw [h1, h2]

theorem sha_K_eq : sha256_K_src = sha256_K_std := rfl

theorem sha_H0_eq : sha256_H0_src = sha256_H0_std := rfl

theorem sha256_33_correct (l : List Nat) (h : l.length = 33) : sha256_33 l = sha256_std l := by
  have hblk : (shaFastBlock l).length = 64 := by
    unfold shaFastBlock
    simp [h]
  unfold sha256_std
  rw [shaPad_33 l h, chunks64_single _ hblk, List.foldl_cons, List.foldl_nil]
  unfold sha256_33
  rw [sha_K_eq, sha_H0_eq]

theorem rmdPad_32 (l : List Nat) (h : l.length = 32) :
    rmdPad l = l ++ 0x80 :: (List.replicate 23 0 ++ [0, 1, 0, 0, 0, 0, 0, 0]) := by
  unfold rmdPad
  rw [h]
  have h1 : (119 - 32 % 64) % 64 = 23 := by norm_num
  have h2 : le64bytes (8 * 32) = [0, 1, 0, 0, 0, 0, 0, 0] := by decide
  rw [h1, h2]

theorem rmdX_32 (l : List Nat) (h : l.length = 32) :
    le32words (rmdPad l) = rmdFastX l := by
  rw [rmdPad_32 l h]
  obtain ⟨b0, l, rfl⟩ := List.exists_of_length_succ l (show l.length = 31 + 1 by omega)
  simp only [List.length_cons] at h
  obtain ⟨b1, l, rfl⟩ := List.exists_of_length_succ l (show l.length = 30 + 1 by omega)
  simp only [List.length_cons] at h
  obtain ⟨b2, l, rfl⟩ := List.exists_of_length_succ l (show l.length = 29 + 1 by omega)
  simp only [List.length_cons] at h
  obtain ⟨b3, l, rfl⟩ := List.exists_of_length_succ l (show l.length = 28 + 1 by omega)
  simp only [List.length_cons] at h
  obtain ⟨b4, l, rfl⟩ := List.exists_of_length_succ l (show l.length = 27 + 1 by omega)
  simp only [List.length_cons] at h
  obtain ⟨b5, l, rfl⟩ := List.exists_of_length_succ l (show l.length = 26 + 1 by omega)
  simp only [List.length_cons] at h
  obtain ⟨b6, l, rfl⟩ := List.exists_of_length_succ l (show l.length = 25 + 1 by omega)
  simp only [List.length_cons] at h
  obtain ⟨b7, l, rfl⟩ := List.exists_of_length_succ l (show l.length = 24 + 1 by omega)
  simp only [List.length_cons] at h
  obtain ⟨b8, l, rfl⟩ := List.exists_of_length_succ l (show l.length = 23 + 1 by omega)
  simp only [List.length_cons] at h
  obtain ⟨b9, l, rfl⟩ := List.exists_of_length_succ l (show l.length = 22 + 1 by omega)
  simp only [List.length_cons] at h
  obtain ⟨b10, l, rfl⟩ := List.exists_of_length_succ l (show l.length = 21 + 1 by omega)
  simp only [List.length_cons] at h
  obtain ⟨b11, l, rfl⟩ := List.exists_of_length_succ l (show l.length = 20 + 1 by omega)
  simp only [List.length_cons] at h
  obtain ⟨b12, l, rfl⟩ := List.exists_of_length_succ l (show l.length = 19 + 1 by omega)
  simp only [List.length_cons] at h
  obtain ⟨b13, l, rfl⟩ := List.exists_of_length_succ l (show l.length = 18 + 1 by omega)
  simp only [List.length_cons] at h
  obtain ⟨b14, l, rfl⟩ := List.exists_of_length_succ l (show l.length = 17 + 1 by omega)
  simp only [List.length_cons] at h
  obtain ⟨b15, l, rfl⟩ := List.exists_of_length_succ l (show l.length = 16 + 1 by omega)
  simp only [List.length_cons] at h
  obtain ⟨b16, l, rfl⟩ := List.exists_of_length_succ l (show l.length = 15 + 1 by omega)
  simp only [List.length_cons] at h
  obtain ⟨b17, l, rfl⟩ := List.exists_of_length_succ l (show l.length = 14 + 1 by omega)
  simp only [List.length_cons] at h
  obtain ⟨b18, l, rfl⟩ := List.exists_of_length_succ l (show l.length = 13 + 1 by omega)
  simp only [List.length_cons] at h
  obtain ⟨b19, l, rfl⟩ := List.exists_of_length_succ l (show l.length = 12 + 1 by omega)
  simp only [List.length_cons] at h
  obtain ⟨b20, l, rfl⟩ := List.exists_of_length_succ l (show l.length = 11 + 1 by omega)
  simp only [List.length_cons] at h
  obtain ⟨b21, l, rfl⟩ := List.exists_of_length_succ l (show l.length = 10 + 1 by omega)
  simp only [List.length_cons] at h
  obtain ⟨b22, l, rfl⟩ := List.exists_of_length_succ l (show l.length = 9 + 1 by omega)
  simp only [List.length_cons] at h
  obtain ⟨b23, l, rfl⟩ := List.exists_of_length_succ l (show l.length = 8 + 1 by omega)
  simp only [List.length_cons] at h
  obtain ⟨b24, l, rfl⟩ := List.exists_of_length_succ l (show l.length = 7 + 1 by omega)
  simp only [List.length_cons] at h
  obtain ⟨b25, l, rfl⟩ := List.exists_of_length_succ l (show l.length = 6 + 1 by omega)
  simp only [List.length_cons] at h
  obtain ⟨b26, l, rfl⟩ := List.exists_of_length_succ l (show l.length = 5 + 1 by omega)
  simp only [List.length_cons] at h
  obtain ⟨b27, l, rfl⟩ := List.exists_of_length_succ l (show l.length = 4 + 1 by omega)
  simp only [List.length_cons] at h
  obtain ⟨b28, l, rfl⟩ := List.exists_of_length_succ l (show l.length = 3 + 1 by omega)
  simp only [List.length_cons] at h
  obtain ⟨b29, l, rfl⟩ := List.exists_of_length_succ l (show l.length = 2 + 1 by omega)
  simp only [List.length_cons] at h
  obtain ⟨b30, l, rfl⟩ := List.exists_of_length_succ l (show l.length = 1 + 1 by omega)
  simp only [List.length_cons] at h
  obtain ⟨b31, l, rfl⟩ := List.exists_of_length_succ l (show l.length = 0 + 1 by omega)
  simp only [List.length_cons] at h
  have hnil : l = [] := by
    cases l with
    | nil => rfl
    | cons x xs => simp at h
  subst hnil
  rfl

theorem rmd_tables_left_eq : rmdLeftRounds_src = rmdLeftRounds_std := by decide

theorem rmd_tables_right_eq : rmdRightRounds_src = rmdRightRounds_std := by decide

theorem rmd_H0_eq : rmd160_H0_src = rmd160_H0_std := rfl

theorem rmdFinalize_eq (L R : RmdState) :
    rmdFinalizeSrc L R = rmdFinalizeStd rmd160_H0_std L R := rfl

theorem rmd160_32_correct (l : List Nat) (h : l.length = 32) :
    rmd160_32 l = rmd160_std l := by
  have hpad : (rmdPad l).length = 64 := by
    unfold rmdPad
    simp [h, le64bytes]
  unfold rmd160_std
  rw [chunks64_single _ hpad, List.foldl_cons, List.foldl_nil]
  simp only [rmd160_32, rmd160_block_std]
  rw [rmdX_32 l h, rmd_tables_left_eq, rmd_tables_right_eq, rmd_H0_eq, rmdFinalize_eq]

theorem sha256_33_length (l : List Nat) : (sha256_33 l).length = 32 := rfl

/-- C2: the fixed-width hash pipeline is the standard composition: for every
33-byte input, `hash160_fast` (that is, `rmd160_32` after `sha256_33`, with
the source's fixed single-block paddings, round-constant tables, round
orderings including RIPEMD-160's two parallel lines, and final
state-combination) returns exactly the standard `RIPEMD160(SHA256(input))`
digest; in particular the hash of the compressed generator point equals the
published constant 751e76e8199196d454941c45d1b3a323f1433bd6. -/
theorem hash160_fast_matches_standard :
    (∀ input : List Nat, input.length = 33 → hash160_fast input = hash160_std input) ∧
    hash160_fast compressedG = hash160G := by
  constructor
  · intro input h
    unfold hash160_fast hash160_std
    rw [← sha256_33_correct input h]
    exact rmd160_32_correct (sha256_33 input) (sha256_33_length input)
  · decide

theorem hash160_fast_matches_standard_witness :
    compressedG.length = 33 ∧ hash160_fast compressedG = hash160_std compressedG :=
  ⟨by decide, hash160_fast_matches_standard.1 compressedG (by decide)⟩
